import Mathlib

/-!
Verification development for the SolRiver project-finance engine.

The definitions below are a shallow embedding of `src/model.py` and
`src/sensitivity.py`.  Python floats are modelled as exact rationals, and a
Python `ZeroDivisionError` (raised by `/` or by `0.0 ** n` with negative `n`)
is modelled by returning `Except.error`; all other code is pure.  Definitions
keep the source names where Lean allows it.
-/

set_option maxHeartbeats 4000000
set_option maxRecDepth 20000

deriving instance DecidableEq for Except

attribute [local semireducible] Rat.mul Rat.inv Rat.add Rat.sub Rat.ofScientific

namespace SolRiver

/-- Row of the `projects` table, restricted to the fields the model reads. -/
structure Project where
  capacity_mw : ℚ
  cf_year1 : ℚ
  degradation_pct : ℚ
  ppa_price : ℚ
  capex : ℚ
  opex_annual : ℚ
  deriving DecidableEq

/-- Row of the `financing` table, restricted to the fields the model reads. -/
structure Financing where
  debt_pct : ℚ
  interest_rate : ℚ
  term_years : ℤ
  deriving DecidableEq

/-- One entry of the amortization schedule built by `loan_schedule`. -/
structure LoanEntry where
  year : ℕ
  payment : ℚ
  interest : ℚ
  principal : ℚ
  balance : ℚ
  deriving DecidableEq

/-- The four per-year series accumulated by the loop of
`compute_project_finance` (model.py lines 97-120). -/
structure YearSeries where
  cashflows : List ℚ
  revenues : List ℚ
  opex_list : List ℚ
  debt_service : List ℚ
  deriving DecidableEq

/-- The result record of `compute_project_finance` (model.py lines 145-150). -/
structure Proforma where
  irr : ℚ
  npv : ℚ
  payback_year : Option ℕ
  min_dscr : Option ℚ
  deriving DecidableEq

/-- One row appended by `run_sensitivity` (sensitivity.py lines 67-77). -/
structure SensRow where
  ppa_mult : ℚ
  capex_mult : ℚ
  debt_pct : ℚ
  irr : ℚ
  npv : ℚ
  payback_year : Option ℕ
  min_dscr : Option ℚ
  deriving DecidableEq

/-- Value of `sum(cf / ((1 + rate) ** t) for t, cf in enumerate(cashflows))`
(model.py line 19 and line 28), in exact arithmetic. -/
def npvSum (rate : ℚ) (cashflows : List ℚ) : ℚ :=
  (cashflows.enum.map (fun p => p.2 / (1 + rate) ^ p.1)).sum

/-- The `npv` function of model.py line 18-19.  Python raises
`ZeroDivisionError` exactly when `1 + rate = 0` and some term has `t ≥ 1`. -/
def npvE (rate : ℚ) (cashflows : List ℚ) : Except String ℚ :=
  if 1 + rate = 0 ∧ 2 ≤ cashflows.length then .error "float division by zero"
  else .ok (npvSum rate cashflows)

/-- Value of `sum(-t * cf / ((1 + r) ** (t + 1)) for t, cf in enumerate(cashflows))`
(model.py line 29), in exact arithmetic. -/
def dnpvSum (rate : ℚ) (cashflows : List ℚ) : ℚ :=
  (cashflows.enum.map (fun p => (-(p.1 : ℚ)) * p.2 / (1 + rate) ^ (p.1 + 1))).sum

/-- The derivative sum of model.py line 29.  Every term divides by
`(1 + r) ** (t + 1)`, so Python raises as soon as the list is nonempty and
`1 + rate = 0`. -/
def dnpvE (rate : ℚ) (cashflows : List ℚ) : Except String ℚ :=
  if 1 + rate = 0 ∧ 1 ≤ cashflows.length then .error "float division by zero"
  else .ok (dnpvSum rate cashflows)

/-- The Newton-Raphson loop of `irr` (model.py lines 26-36), fuel = remaining
iterations.  `math.isclose(d_npv, 0.0, abs_tol=1e-12)` is equivalent to
`|d_npv| ≤ 1e-12` (the default relative tolerance term `1e-9 * |d_npv|` is
dominated), and `break` followed by `return r` returns the current estimate. -/
def irrLoop (cashflows : List ℚ) (tol : ℚ) : ℕ → ℚ → Except String ℚ
  | 0, r => .ok r
  | k + 1, r =>
    match npvE r cashflows, dnpvE r cashflows with
    | .error e, _ => .error e
    | .ok _, .error e => .error e
    | .ok npv_val, .ok d_npv =>
      if |d_npv| ≤ 1 / 10 ^ 12 then .ok r
      else
        let new_r := r - npv_val / d_npv
        if |new_r - r| < tol then .ok new_r
        else irrLoop cashflows tol k new_r

/-- The `irr` function of model.py lines 22-36 with its default arguments
`guess=0.08`, `tol=1e-6`, `maxiter=200`. -/
def irr (cashflows : List ℚ) (guess : ℚ := 2 / 25) (tol : ℚ := 1 / 10 ^ 6)
    (maxiter : ℕ := 200) : Except String ℚ :=
  irrLoop cashflows tol maxiter guess

/-- Modelled from the spec: one Newton-Raphson iteration loop exactly as §4.3
words it — derivative `Σ -t·cf_t/(1+r)^(t+1)`, early stop returning the
current estimate when the derivative magnitude falls to `1e-12` or below,
return of the new iterate when the successive-iterate difference falls below
`tol`, and return of the last computed estimate when the fuel runs out.
Division-by-zero propagation is inherited from the NPV evaluation. -/
def irrSpecLoop (series : List ℚ) (tol : ℚ) : ℕ → ℚ → Except String ℚ
  | 0, est => .ok est
  | n + 1, est =>
    match npvE est series, dnpvE est series with
    | .error e, _ => .error e
    | .ok _, .error e => .error e
    | .ok value, .ok slope =>
      if |slope| ≤ 1 / 10 ^ 12 then .ok est
      else
        let next := est - value / slope
        if |next - est| < tol then .ok next
        else irrSpecLoop series tol n next

/-- Modelled from the spec: the IRR solver of §4.3 — starting guess `0.08`,
tolerance `1e-6`, at most `200` iterations. -/
def irrSpec (series : List ℚ) : Except String ℚ :=
  irrSpecLoop series (1 / 10 ^ 6) 200 (2 / 25)

/-- The `for year in range(1, term_years + 1)` loop of `loan_schedule`
(model.py lines 52-65): `interest = balance * rate`,
`principal_paid = payment - interest`, `balance = max(balance - principal_paid, 0.0)`. -/
def amortLoop (payment rate : ℚ) : ℚ → ℕ → ℕ → List LoanEntry
  | _, _, 0 => []
  | balance, year, k + 1 =>
    let interest := balance * rate
    let principal_paid := payment - interest
    let balance2 := max (balance - principal_paid) 0
    ⟨year, payment, interest, principal_paid, balance2⟩ ::
      amortLoop payment rate balance2 (year + 1) k

/-- The `loan_schedule` function of model.py lines 39-66.  For nonzero rate the
payment is the annuity `principal * (rate * (1+rate)^n) / ((1+rate)^n - 1)`;
for zero rate it is `principal / term_years`.  Python raises
`ZeroDivisionError` when the annuity denominator is zero (e.g. `term_years = 0`),
when `term_years = 0` in the zero-rate branch, or when `1 + rate = 0` is raised
to a negative integer power. -/
def loan_schedule (principal rate : ℚ) (term_years : ℤ) : Except String (List LoanEntry) :=
  if rate ≠ 0 then
    if 1 + rate = 0 ∧ term_years < 0 then
      .error "0.0 cannot be raised to a negative power"
    else if (1 + rate) ^ term_years - 1 = 0 then
      .error "float division by zero"
    else
      .ok (amortLoop
        (principal * (rate * (1 + rate) ^ term_years / ((1 + rate) ^ term_years - 1)))
        rate principal 1 term_years.toNat)
  else
    if term_years = 0 then .error "float division by zero"
    else .ok (amortLoop (principal / (term_years : ℚ)) rate principal 1 term_years.toNat)

/-- The `for year in range(1, years + 1)` loop of `compute_project_finance`
(model.py lines 102-120), building the four parallel series.  Debt service is
`loan[year-1]["payment"]` when `year ≤ len(loan)` and `0.0` otherwise; the
`capex / years` depreciation is evaluated only inside the loop body, so it can
never divide by zero (the loop body runs only when `years ≥ 1`). -/
def yearLoopAux (energy deg ppa opexA esc capex tax_rate : ℚ) (years : ℤ)
    (loan : List LoanEntry) : ℕ → ℕ → YearSeries
  | _, 0 => ⟨[], [], [], []⟩
  | year, k + 1 =>
    let production := energy * (1 - deg) ^ (year - 1)
    let revenue := production * 1000 * ppa
    let opex_y := opexA * (1 + esc) ^ (year - 1)
    let ds := ((loan.get? (year - 1)).map LoanEntry.payment).getD 0
    let depreciation := capex / (years : ℚ)
    let taxable := revenue - opex_y - depreciation - ds
    let tax := max (taxable * tax_rate) 0
    let atcf := revenue - opex_y - ds - tax + depreciation
    let rest := yearLoopAux energy deg ppa opexA esc capex tax_rate years loan (year + 1) k
    ⟨atcf :: rest.cashflows, revenue :: rest.revenues,
      opex_y :: rest.opex_list, ds :: rest.debt_service⟩

/-- Lines 80-120 of model.py: the loan schedule plus the per-year series.
`energy_mwh_year1 = capacity_mw * cf_year1 * 8760`, the loan principal is
`capex * debt_pct`. -/
def year_series (proj : Project) (financing : Financing) (tax_rate : ℚ)
    (years : ℤ) (opex_escalation : ℚ) : Except String YearSeries :=
  match loan_schedule (proj.capex * financing.debt_pct) financing.interest_rate
      financing.term_years with
  | .error e => .error e
  | .ok loan =>
    .ok (yearLoopAux (proj.capacity_mw * proj.cf_year1 * 8760) proj.degradation_pct
      proj.ppa_price proj.opex_annual opex_escalation proj.capex tax_rate years
      loan 1 years.toNat)

/-- The payback loop of model.py lines 128-134: `cumulative` starts at `0.0`
and is accumulated over `series[1:]` with `enumerate(..., start=1)`. -/
def paybackLoop : ℚ → ℕ → List ℚ → Option ℕ
  | _, _, [] => none
  | cumulative, idx, cf :: rest =>
    if 0 < cumulative + cf then some idx else paybackLoop (cumulative + cf) (idx + 1) rest

/-- Modelled from the spec: §4.3's payback — the first index `t ≥ 1` at which
the running cumulative sum of the series, including the year-0 entry at
index 0, becomes strictly positive. -/
def payback_spec_go : ℚ → ℕ → List ℚ → Option ℕ
  | _, _, [] => none
  | cumulative, t, x :: xs =>
    if 1 ≤ t ∧ 0 < cumulative + x then some t
    else payback_spec_go (cumulative + x) (t + 1) xs

/-- Modelled from the spec: payback over the full series starting at index 0. -/
def payback_spec (series : List ℚ) : Option ℕ :=
  payback_spec_go 0 0 series

/-- The DSCR loop of model.py lines 136-141: years with non-positive debt
service are skipped, others contribute `(revenue - opex) / debt_service`.
The three lists always have equal length as built by `yearLoopAux`. -/
def dscrLoop : List ℚ → List ℚ → List ℚ → List ℚ
  | r :: rs, o :: os, d :: ds =>
    if d ≤ 0 then dscrLoop rs os ds else (r - o) / d :: dscrLoop rs os ds
  | _, _, _ => []

/-- Python `min(values) if values else None` (model.py line 143). -/
def pymin : List ℚ → Option ℚ
  | [] => none
  | x :: xs => some (xs.foldl min x)

/-- The `compute_project_finance` function of model.py lines 69-150.
`equity = capex - capex * debt_pct`, the metric series is `[-equity] ++ cashflows`,
`irr` is called before `npv` (lines 124-125), so an `irr` failure surfaces first. -/
def compute_project_finance (proj : Project) (financing : Financing)
    (discount_rate tax_rate : ℚ) (years : ℤ) (opex_escalation : ℚ) :
    Except String Proforma :=
  match year_series proj financing tax_rate years opex_escalation with
  | .error e => .error e
  | .ok ys =>
    let equity := proj.capex - proj.capex * financing.debt_pct
    let series := -equity :: ys.cashflows
    match irr series with
    | .error e => .error e
    | .ok irr_val =>
      match npvE discount_rate series with
      | .error e => .error e
      | .ok npv_val =>
        .ok ⟨irr_val, npv_val, paybackLoop 0 1 (series.drop 1),
          pymin (dscrLoop ys.revenues ys.opex_list ys.debt_service)⟩

/-- `ppa_mults` of sensitivity.py line 43. -/
def ppaMults : List ℚ := [9 / 10, 19 / 20, 1, 21 / 20, 11 / 10]

/-- `capex_mults` of sensitivity.py line 44. -/
def capexMults : List ℚ := [9 / 10, 1, 11 / 10]

/-- `debt_levels` of sensitivity.py line 45:
`[max(0.0, base - 0.10), base, min(0.95, base + 0.10)]`. -/
def debtLevels (base : ℚ) : List ℚ :=
  [max 0 (base - 1 / 10), base, min (19 / 20) (base + 1 / 10)]

/-- The grid enumerated by the triple loop of sensitivity.py lines 48-50:
PPA multiplier outer, capex multiplier middle, debt level inner. -/
def sensPoints (base : ℚ) : List (ℚ × ℚ × ℚ) :=
  ppaMults.flatMap fun p => capexMults.flatMap fun c => (debtLevels base).map fun d => (p, c, d)

/-- One grid-point evaluation (sensitivity.py lines 51-77): copy the base
records, override `ppa_price`, `capex` and `debt_pct`, run the engine, and
build the result row. -/
def evalPoint (proj : Project) (financing : Financing) (discount_rate tax_rate : ℚ)
    (years : ℤ) (opex_escalation : ℚ) (pt : ℚ × ℚ × ℚ) : Except String SensRow :=
  match compute_project_finance
      { proj with ppa_price := proj.ppa_price * pt.1, capex := proj.capex * pt.2.1 }
      { financing with debt_pct := pt.2.2 }
      discount_rate tax_rate years opex_escalation with
  | .error e => .error e
  | .ok out =>
    .ok ⟨pt.1, pt.2.1, pt.2.2, out.irr, out.npv, out.payback_year, out.min_dscr⟩

/-- The accumulation of `results` rows over the grid.  The Python loop has no
exception handling around `compute_project_finance`, so a raise at any grid
point propagates and discards every row built so far; this is exactly the
short-circuiting of the error monad. -/
def mapE (f : ℚ × ℚ × ℚ → Except String SensRow) :
    List (ℚ × ℚ × ℚ) → Except String (List SensRow)
  | [] => .ok []
  | pt :: pts =>
    match f pt with
    | .error e => .error e
    | .ok row =>
      match mapE f pts with
      | .error e => .error e
      | .ok rows => .ok (row :: rows)

/-- The `run_sensitivity` function of sensitivity.py lines 17-91, restricted to
its computational core: the ordered rows it builds (the CSV serialization and
database fetch are I/O collaborators outside the model). -/
def run_sensitivity (proj : Project) (financing : Financing)
    (discount_rate tax_rate : ℚ) (years : ℤ) (opex_escalation : ℚ) :
    Except String (List SensRow) :=
  mapE (evalPoint proj financing discount_rate tax_rate years opex_escalation)
    (sensPoints financing.debt_pct)

/-- The perturbation coordinates of a sensitivity row. -/
def coords (row : SensRow) : ℚ × ℚ × ℚ :=
  (row.ppa_mult, row.capex_mult, row.debt_pct)

/-- The rows of a sweep result, empty when the sweep raised. -/
def okRows : Except String (List SensRow) → List SensRow
  | .ok rows => rows
  | .error _ => []

/-- Whether an exception-carrying computation succeeded. -/
def exceptIsOk {α : Type} : Except String α → Bool
  | .ok _ => true
  | .error _ => false

/-- One year of the amortization recurrence:
`balance ↦ max(balance - (payment - balance * rate), 0)`. -/
def stepB (payment rate b : ℚ) : ℚ :=
  max (b - (payment - b * rate)) 0

/-- Nonzero entries of a series, for counting sign changes. -/
def signFilter (l : List ℚ) : List ℚ :=
  l.filter fun x => decide (x ≠ 0)

/-- Number of adjacent sign flips in a list. -/
def signFlips : List ℚ → ℕ
  | a :: b :: rest => (if a * b < 0 then 1 else 0) + signFlips (b :: rest)
  | _ => 0

/-- Number of sign changes of a cash-flow series (zeros skipped). -/
def signChanges (l : List ℚ) : ℕ :=
  signFlips (signFilter l)

/-- Whether `NPV(irr(series), series)` evaluates and lands within `1e-4` of 0. -/
def roundTripOk (series : List ℚ) : Bool :=
  match irr series with
  | .error _ => false
  | .ok r =>
    match npvE r series with
    | .error _ => false
    | .ok v => decide (|v| ≤ 1 / 10 ^ 4)

/-! ### Helper lemmas -/

theorem irrLoop_eq_irrSpecLoop (cashflows : List ℚ) (tol : ℚ) :
    ∀ (k : ℕ) (r : ℚ), irrLoop cashflows tol k r = irrSpecLoop cashflows tol k r := by
  intro k
  induction k with
  | zero => intro r; rfl
  | succ n ih =>
    intro r
    rw [irrLoop, irrSpecLoop]
    cases npvE r cashflows with
    | error e => rfl
    | ok v =>
      cases dnpvE r cashflows with
      | error e => rfl
      | ok d =>
        by_cases h1 : |d| ≤ 1 / 10 ^ 12
        · simp only [if_pos h1]
        · simp only [if_neg h1]
          by_cases h2 : |r - v / d - r| < tol
          · simp only [if_pos h2]
          · simp only [if_neg h2]
            exact ih (r - v / d)

theorem evalPoint_coords (proj : Project) (financing : Financing)
    (dr tr : ℚ) (yrs : ℤ) (esc : ℚ) (pt : ℚ × ℚ × ℚ) (row : SensRow)
    (h : evalPoint proj financing dr tr yrs esc pt = .ok row) : coords row = pt := by
  unfold evalPoint at h
  cases hc : compute_project_finance
      { proj with ppa_price := proj.ppa_price * pt.1, capex := proj.capex * pt.2.1 }
      { financing with debt_pct := pt.2.2 } dr tr yrs esc with
  | error e => rw [hc] at h; exact Except.noConfusion h
  | ok out =>
    rw [hc] at h
    cases h
    obtain ⟨p, c, d⟩ := pt
    rfl

theorem mapE_ok_coords (f : ℚ × ℚ × ℚ → Except String SensRow)
    (hf : ∀ pt row, f pt = .ok row → coords row = pt) :
    ∀ (pts : List (ℚ × ℚ × ℚ)) (rows : List SensRow),
      mapE f pts = .ok rows → rows.map coords = pts := by
  intro pts
  induction pts with
  | nil => intro rows h; cases h; rfl
  | cons pt pts ih =>
    intro rows h
    unfold mapE at h
    cases hp : f pt with
    | error e => rw [hp] at h; exact Except.noConfusion h
    | ok row =>
      rw [hp] at h
      cases hm : mapE f pts with
      | error e => rw [hm] at h; exact Except.noConfusion h
      | ok rs =>
        rw [hm] at h
        cases h
        simp [hf pt row hp, ih rs hm]

theorem sensPoints_length (base : ℚ) : (sensPoints base).length = 45 := rfl

/-! ### Claim theorems -/

/-- Claim C1: the spec (and standard payback semantics) requires the running
cumulative sum to include the year-0 equity outflow `-equity`; the code starts
its cumulative at `0.0` and iterates over `series[1:]` only, so the equity
outflow is excluded.  At the input below the cash-flow series is
`[-900, 600, 600]`: the code reports payback year 1 although the cumulative sum
including the equity outflow is `-300 < 0` at year 1 and first turns positive
(`300`) at year 2, as `payback_spec` (the spec's definition) reports. -/
theorem payback_excludes_equity_outflow :
    (year_series ⟨1, 1, 0, 1 / 58400, 900, 0⟩ ⟨0, 1 / 20, 1⟩ 0 2 0).map YearSeries.cashflows
      = .ok [600, 600]
    ∧ (compute_project_finance ⟨1, 1, 0, 1 / 58400, 900, 0⟩ ⟨0, 1 / 20, 1⟩ (2 / 25) 0 2 0).map
        Proforma.payback_year = .ok (some 1)
    ∧ payback_spec [-900, 600, 600] = some 2 :=
  ⟨by decide, by decide, by decide⟩

/-- Claim C2: `run_sensitivity` has no per-grid-point exception handling, so
one failing grid point aborts the whole sweep and no rows are reported.  At
the valid base input below the very first grid point (PPA mult 0.90, capex
mult 0.90, debt level 0) produces the series `[-900, 486]`, on which the
Newton iteration moves from `0.08` to exactly `-1`, and the next NPV
evaluation divides by zero (exhibited in the exact rational arithmetic of this
model); the error propagates out of the sweep instead of being recorded as a
per-row failure marker. -/
theorem run_sensitivity_aborts_on_failure :
    run_sensitivity ⟨1, 1, 0, 1 / 8760, 1000, 1314⟩ ⟨1 / 10, 1 / 20, 1⟩ (2 / 25) 0 1 0
      = .error "float division by zero" := by
  decide

/-- Claim C3: the engine performs no input validation.  With
`project_life_years = 0` (non-positive) it silently returns the numeric result
`{irr = 0.08, npv = -equity, payback = none, dscr = none}`, and with
`debt_pct = 3/2` (outside `[0,1]`, giving negative equity) it also returns a
numeric result; neither input produces a validation failure. -/
theorem no_input_validation :
    compute_project_finance ⟨1, 1, 0, 1 / 8760, 1000, 0⟩ ⟨1 / 2, 1 / 20, 1⟩ (2 / 25) 0 0 0
      = .ok ⟨2 / 25, -500, none, none⟩
    ∧ exceptIsOk (compute_project_finance ⟨1, 1, 0, 1 / 8760, 1000, 0⟩ ⟨3 / 2, 1 / 20, 1⟩
        (2 / 25) 0 1 0) = true :=
  ⟨by decide, by decide⟩

/-- Claim C4 (counterexample): with the valid base `debt_pct = 1` the sweep
emits rows whose debt coordinate is `1`, which is not within `[0, 0.95]` —
the middle debt level is the unclamped base. -/
theorem debt_level_escapes_clamp :
    (1 : ℚ) ∈ (okRows (run_sensitivity ⟨1, 1, 0, 1 / 876000, 100, 1⟩ ⟨1, 0, 1⟩
        (2 / 25) 0 1 0)).map SensRow.debt_pct
    ∧ ¬((1 : ℚ) ≤ 19 / 20) :=
  ⟨by decide, by decide⟩

/-- Claim C4 (amended): of the three enumerated debt levels, the lowered level
`max 0 (base - 0.10)` and the raised level `min 0.95 (base + 0.10)` always lie
in `[0, 0.95]` for base in `[0, 1]`; the middle level is the unclamped base
itself and is only guaranteed to lie in `[0, 1]`. -/
theorem debt_levels_partial_clamp (base : ℚ) (h0 : 0 ≤ base) (h1 : base ≤ 1) :
    debtLevels base = [max 0 (base - 1 / 10), base, min (19 / 20) (base + 1 / 10)]
    ∧ (0 ≤ max 0 (base - 1 / 10) ∧ max 0 (base - 1 / 10) ≤ 19 / 20)
    ∧ (0 ≤ min (19 / 20) (base + 1 / 10) ∧ min (19 / 20) (base + 1 / 10) ≤ 19 / 20)
    ∧ 0 ≤ base ∧ base ≤ 1 := by
  refine ⟨rfl, ⟨le_max_left 0 _, max_le (by norm_num) (by linarith)⟩,
    ⟨le_min (by norm_num) (by linarith), min_le_left _ _⟩, h0, h1⟩

/-- Witness for Claim C4's amended theorem at the concrete base `1`. -/
theorem debt_levels_partial_clamp_witness :
    debtLevels 1 = [max 0 ((1 : ℚ) - 1 / 10), 1, min (19 / 20) ((1 : ℚ) + 1 / 10)]
    ∧ (0 ≤ max 0 ((1 : ℚ) - 1 / 10) ∧ max 0 ((1 : ℚ) - 1 / 10) ≤ 19 / 20)
    ∧ (0 ≤ min (19 / 20) ((1 : ℚ) + 1 / 10) ∧ min (19 / 20) ((1 : ℚ) + 1 / 10) ≤ 19 / 20)
    ∧ (0 : ℚ) ≤ 1 ∧ (1 : ℚ) ≤ 1 :=
  debt_levels_partial_clamp 1 (by norm_num) (by norm_num)

/-- Claim C5 (counterexample): at the valid base input below a grid point
raises (the Newton iteration reaches `-1` exactly, in the exact rational
arithmetic of this model), so the sweep returns an error and does not produce
45 rows. -/
theorem sweep_does_not_always_produce_rows :
    exceptIsOk (run_sensitivity ⟨1, 1, 0, 1 / 8760, 2000, 1728⟩ ⟨1 / 10, 1 / 20, 1⟩
      (2 / 25) 0 1 0) = false := by
  decide

/-- Claim C5 (amended): whenever every grid-point evaluation succeeds — that
is, whenever the sweep returns rows at all — it returns exactly 45 rows
(5 PPA multipliers × 3 capex multipliers × 3 debt levels) whose perturbation
coordinates are exactly the deterministic enumeration with the PPA multiplier
outer (0.90, 0.95, 1.00, 1.05, 1.10 in order), the capex multiplier middle
(0.90, 1.00, 1.10 in order), and the debt level inner. -/
theorem run_sensitivity_rows_shape (proj : Project) (financing : Financing)
    (dr tr : ℚ) (yrs : ℤ) (esc : ℚ) (rows : List SensRow)
    (h : run_sensitivity proj financing dr tr yrs esc = .ok rows) :
    rows.length = 45 ∧ rows.map coords = sensPoints financing.debt_pct := by
  have hc := mapE_ok_coords (evalPoint proj financing dr tr yrs esc)
    (fun pt row hr => evalPoint_coords proj financing dr tr yrs esc pt row hr)
    (sensPoints financing.debt_pct) rows h
  refine ⟨?_, hc⟩
  have hl := congrArg List.length hc
  rw [List.length_map] at hl
  rw [hl, sensPoints_length]

/-- Witness for Claim C5's amended theorem: a base input on which every grid
point evaluates, with base debt 1/2. -/
theorem run_sensitivity_rows_shape_witness :
    ∃ rows, run_sensitivity ⟨0, 0, 0, 0, 0, 0⟩ ⟨1 / 2, 0, 1⟩ (2 / 25) 0 1 0 = .ok rows
      ∧ rows.length = 45 ∧ rows.map coords = sensPoints (1 / 2) := by
  cases h : run_sensitivity ⟨0, 0, 0, 0, 0, 0⟩ ⟨1 / 2, 0, 1⟩ (2 / 25) 0 1 0 with
  | error e =>
    have hok : exceptIsOk (run_sensitivity ⟨0, 0, 0, 0, 0, 0⟩ ⟨1 / 2, 0, 1⟩
        (2 / 25) 0 1 0) = true := by decide
    rw [h] at hok
    exact absurd hok (by simp [exceptIsOk])
  | ok rows =>
    have hs := run_sensitivity_rows_shape ⟨0, 0, 0, 0, 0, 0⟩ ⟨1 / 2, 0, 1⟩
      (2 / 25) 0 1 0 rows h
    exact ⟨rows, rfl, hs.1, hs.2⟩

/-- Claim C6: the `irr` implementation coincides with the solver described in
§4.3 of the spec — Newton-Raphson from guess 0.08, at most 200 iterations,
derivative `Σ -t·cf_t/(1+r)^(t+1)`, early return of the current estimate when
the derivative magnitude is at most 1e-12, return of the new iterate when the
successive-iterate difference is below 1e-6, and return of the last computed
estimate when the iterations are exhausted. -/
theorem irr_matches_spec_solver : ∀ cashflows : List ℚ, irr cashflows = irrSpec cashflows :=
  fun cashflows => irrLoop_eq_irrSpecLoop cashflows (1 / 10 ^ 6) 200 (2 / 25)

/-- Claim C9 (counterexample): for the single-sign-change series
`[-(2 - 1e-8), 1.08]` the Newton iteration's successive-iterate stopping rule
fires at the second step, far from the root: the returned rate has
`NPV ≈ 5·10^7`, nowhere within `1e-4` of zero. -/
theorem irr_npv_roundtrip_fails :
    signChanges [-(199999999 / 100000000 : ℚ), 27 / 25] = 1
    ∧ roundTripOk [-(199999999 / 100000000 : ℚ), 27 / 25] = false :=
  ⟨by decide, by decide⟩

/-- Claim C9 (amended): the IRR/NPV round trip within `1e-4` is not guaranteed
for every single-sign-change series; it does hold when the iteration converges
to the root, e.g. for the single-sign-change series `[-1, 2.16]`. -/
theorem irr_npv_roundtrip_example :
    signChanges [(-1 : ℚ), 54 / 25] = 1 ∧ roundTripOk [(-1 : ℚ), 54 / 25] = true :=
  ⟨by decide, by decide⟩

/-- Claim C10: with the valid base `debt_pct = 0` the lowered debt level
clamps to the base itself, so the first two of the 45 emitted rows carry the
identical coordinates `(0.9, 0.9, 0)` — grid points are not pairwise
distinct. -/
theorem sensitivity_duplicate_grid_points :
    ((okRows (run_sensitivity ⟨1, 1, 0, 1 / 876000, 100, 1⟩ ⟨0, 0, 1⟩
        (2 / 25) 0 1 0)).map coords).take 2 = [(9 / 10, 9 / 10, 0), (9 / 10, 9 / 10, 0)]
    ∧ (okRows (run_sensitivity ⟨1, 1, 0, 1 / 876000, 100, 1⟩ ⟨0, 0, 1⟩
        (2 / 25) 0 1 0)).length = 45 :=
  ⟨by decide, by decide⟩

/-! ### Amortization lemmas for Claim C7 -/

theorem amortLoop_succ (p r b : ℚ) (y k : ℕ) :
    amortLoop p r b y (k + 1)
      = ⟨y, p, b * r, p - b * r, max (b - (p - b * r)) 0⟩ ::
          amortLoop p r (max (b - (p - b * r)) 0) (y + 1) k := rfl

theorem amortLoop_getLast (p r : ℚ) :
    ∀ (k : ℕ) (b : ℚ) (y : ℕ), ∃ e : LoanEntry,
      (amortLoop p r b y (k + 1)).getLast? = some e ∧ e.balance = (stepB p r)^[k + 1] b := by
  intro k
  induction k with
  | zero =>
    intro b y
    refine ⟨⟨y, p, b * r, p - b * r, max (b - (p - b * r)) 0⟩, rfl, ?_⟩
    simp [stepB]
  | succ k ih =>
    intro b y
    obtain ⟨e, he, hb⟩ := ih (stepB p r b) (y + 1)
    refine ⟨e, ?_, ?_⟩
    · rw [amortLoop_succ, amortLoop_succ, List.getLast?_cons_cons, ← amortLoop_succ]
      exact he
    · rw [hb]
      exact (Function.iterate_succ_apply (stepB p r) (k + 1) b).symm

theorem stepB_iterate_pos_rate (principal rate : ℚ) (n : ℕ)
    (hp : 0 ≤ principal) (hr : 0 < rate) (hn : 1 ≤ n) :
    ∀ k, k ≤ n →
      (stepB (principal * (rate * (1 + rate) ^ n / ((1 + rate) ^ n - 1))) rate)^[k] principal
        = principal * (((1 + rate) ^ n - (1 + rate) ^ k) / ((1 + rate) ^ n - 1)) := by
  have hc : (1 : ℚ) < 1 + rate := by linarith
  have hD : (0 : ℚ) < (1 + rate) ^ n - 1 := by
    have := one_lt_pow₀ hc (by omega : n ≠ 0)
    linarith
  intro k
  induction k with
  | zero =>
    intro _
    rw [Function.iterate_zero_apply, pow_zero, div_self (ne_of_gt hD), mul_one]
  | succ k ih =>
    intro hk
    rw [Function.iterate_succ_apply', ih (Nat.le_of_succ_le hk)]
    unfold stepB
    have hnum : principal * (((1 + rate) ^ n - (1 + rate) ^ k) / ((1 + rate) ^ n - 1))
          - (principal * (rate * (1 + rate) ^ n / ((1 + rate) ^ n - 1))
            - principal * (((1 + rate) ^ n - (1 + rate) ^ k) / ((1 + rate) ^ n - 1)) * rate)
        = principal * (((1 + rate) ^ n - (1 + rate) ^ (k + 1)) / ((1 + rate) ^ n - 1)) := by
      field_simp
      ring
    rw [hnum]
    refine max_eq_left ?_
    have hpow : (1 + rate) ^ (k + 1) ≤ (1 + rate) ^ n :=
      pow_le_pow_right₀ (le_of_lt hc) hk
    exact mul_nonneg hp (div_nonneg (by linarith) (le_of_lt hD))

theorem stepB_iterate_zero_rate (principal : ℚ) (m : ℕ)
    (hp : 0 ≤ principal) (hm : 1 ≤ m) :
    ∀ k, k ≤ m →
      (stepB (principal / (m : ℚ)) 0)^[k] principal
        = principal - k * (principal / (m : ℚ)) := by
  have hm0 : (0 : ℚ) < m := by exact_mod_cast hm
  intro k
  induction k with
  | zero => intro _; simp
  | succ k ih =>
    intro hk
    rw [Function.iterate_succ_apply', ih (Nat.le_of_succ_le hk)]
    unfold stepB
    have h1 : principal - (k : ℚ) * (principal / (m : ℚ))
          - (principal / (m : ℚ) - (principal - (k : ℚ) * (principal / (m : ℚ))) * 0)
        = principal - ((k : ℚ) + 1) * (principal / (m : ℚ)) := by ring
    rw [h1]
    have h2 : principal - ((k : ℚ) + 1) * (principal / (m : ℚ))
        = principal * (((m : ℚ) - ((k : ℚ) + 1)) / (m : ℚ)) := by
      field_simp
      ring
    have hk1 : ((k : ℚ) + 1) ≤ (m : ℚ) := by exact_mod_cast hk
    rw [h2, max_eq_left (mul_nonneg hp (div_nonneg (by linarith) (le_of_lt hm0))), ← h2]
    push_cast
    ring

/-- Claim C7: for principal ≥ 0, rate ≥ 0 and a positive integer term, the
final entry of the schedule produced by `loan_schedule` has balance exactly 0
in exact arithmetic — the annuity payment
`principal·rate·(1+rate)^n/((1+rate)^n - 1)` (or `principal/n` at zero rate)
amortizes the balance to exactly zero at year `n`. -/
theorem loan_schedule_final_balance (principal rate : ℚ) (term_years : ℤ)
    (hp : 0 ≤ principal) (hr : 0 ≤ rate) (ht : 1 ≤ term_years) :
    ∃ sched, loan_schedule principal rate term_years = .ok sched
      ∧ ∃ e : LoanEntry, sched.getLast? = some e ∧ e.balance = 0 := by
  have hn1 : 1 ≤ term_years.toNat := by omega
  have hterm : term_years = (term_years.toNat : ℤ) := by omega
  by_cases hr0 : rate = 0
  · subst hr0
    unfold loan_schedule
    rw [if_neg (by simp), if_neg (by omega : ¬term_years = 0)]
    refine ⟨_, rfl, ?_⟩
    obtain ⟨e, he, hb⟩ := amortLoop_getLast (principal / (term_years : ℚ)) 0
      (term_years.toNat - 1) principal 1
    rw [show term_years.toNat - 1 + 1 = term_years.toNat from by omega] at he hb
    refine ⟨e, he, ?_⟩
    have hcast : (term_years : ℚ) = ((term_years.toNat : ℕ) : ℚ) := by
      conv_lhs => rw [hterm]
      push_cast
      ring
    rw [hb, hcast,
      stepB_iterate_zero_rate principal term_years.toNat hp hn1 term_years.toNat le_rfl]
    have hne : ((term_years.toNat : ℕ) : ℚ) ≠ 0 := by
      have : (0 : ℚ) < ((term_years.toNat : ℕ) : ℚ) := by exact_mod_cast hn1
      exact ne_of_gt this
    field_simp
  · have hrpos : 0 < rate := lt_of_le_of_ne hr (Ne.symm hr0)
    have hc1 : (1 : ℚ) < 1 + rate := by linarith
    have hzp : (1 + rate) ^ term_years = (1 + rate) ^ term_years.toNat := by
      have h2 := zpow_natCast (1 + rate) term_years.toNat
      rw [← h2, ← hterm]
    have hD : (0 : ℚ) < (1 + rate) ^ term_years.toNat - 1 := by
      have := one_lt_pow₀ hc1 (by omega : term_years.toNat ≠ 0)
      linarith
    unfold loan_schedule
    rw [if_pos hr0, if_neg (by rintro ⟨h1, -⟩; linarith), hzp]
    rw [if_neg (fun h => absurd h (ne_of_gt hD))]
    refine ⟨_, rfl, ?_⟩
    obtain ⟨e, he, hb⟩ := amortLoop_getLast
      (principal * (rate * (1 + rate) ^ term_years.toNat / ((1 + rate) ^ term_years.toNat - 1)))
      rate (term_years.toNat - 1) principal 1
    rw [show term_years.toNat - 1 + 1 = term_years.toNat from by omega] at he hb
    refine ⟨e, he, ?_⟩
    rw [hb, stepB_iterate_pos_rate principal rate term_years.toNat hp hrpos hn1
      term_years.toNat le_rfl]
    simp

/-- Witness for Claim C7 at the concrete loan (100, 10%, 2 years). -/
theorem loan_schedule_final_balance_witness :
    (0 : ℚ) ≤ 100 ∧ (0 : ℚ) ≤ 1 / 10 ∧ (1 : ℤ) ≤ 2
    ∧ ∃ sched, loan_schedule 100 (1 / 10) 2 = .ok sched
      ∧ ∃ e : LoanEntry, sched.getLast? = some e ∧ e.balance = 0 :=
  ⟨by norm_num, by norm_num, by norm_num,
    loan_schedule_final_balance 100 (1 / 10) 2 (by norm_num) (by norm_num) (by norm_num)⟩

/-! ### DSCR lemmas for Claim C8 -/

theorem compute_ok_min_dscr (proj : Project) (financing : Financing)
    (dr tr : ℚ) (yrs : ℤ) (esc : ℚ) (ys : YearSeries) (out : Proforma)
    (hys : year_series proj financing tr yrs esc = .ok ys)
    (hout : compute_project_finance proj financing dr tr yrs esc = .ok out) :
    out.min_dscr = pymin (dscrLoop ys.revenues ys.opex_list ys.debt_service) := by
  unfold compute_project_finance at hout
  split at hout
  · exact Except.noConfusion hout
  next ys2 heq =>
    rw [hys] at heq
    injection heq with h2
    subst h2
    dsimp only at hout
    split at hout
    · exact Except.noConfusion hout
    split at hout
    · exact Except.noConfusion hout
    injection hout with h3
    subst h3
    rfl

theorem year_series_ok (proj : Project) (financing : Financing) (tr : ℚ) (yrs : ℤ)
    (esc : ℚ) (ys : YearSeries) (hys : year_series proj financing tr yrs esc = .ok ys) :
    ∃ loan, loan_schedule (proj.capex * financing.debt_pct) financing.interest_rate
        financing.term_years = .ok loan
      ∧ ys = yearLoopAux (proj.capacity_mw * proj.cf_year1 * 8760) proj.degradation_pct
          proj.ppa_price proj.opex_annual esc proj.capex tr yrs loan 1 yrs.toNat := by
  unfold year_series at hys
  split at hys
  · exact Except.noConfusion hys
  next loan heq =>
    injection hys with h
    exact ⟨loan, heq, h.symm⟩

theorem yearLoopAux_lengths (energy deg ppa opexA esc capex tax_rate : ℚ) (yrs : ℤ)
    (loan : List LoanEntry) :
    ∀ (k y : ℕ),
      (yearLoopAux energy deg ppa opexA esc capex tax_rate yrs loan y k).revenues.length = k
      ∧ (yearLoopAux energy deg ppa opexA esc capex tax_rate yrs loan y k).opex_list.length = k
      ∧ (yearLoopAux energy deg ppa opexA esc capex tax_rate yrs loan y k).debt_service.length = k := by
  intro k
  induction k with
  | zero => intro y; exact ⟨rfl, rfl, rfl⟩
  | succ k ih =>
    intro y
    obtain ⟨h1, h2, h3⟩ := ih (y + 1)
    unfold yearLoopAux
    exact ⟨by simp [h1], by simp [h2], by simp [h3]⟩

theorem amortLoop_payment_const (p r : ℚ) :
    ∀ (k : ℕ) (b : ℚ) (y : ℕ), ∀ e ∈ amortLoop p r b y k, e.payment = p := by
  intro k
  induction k with
  | zero => intro b y e he; exact absurd he (by simp [amortLoop])
  | succ k ih =>
    intro b y e he
    rw [amortLoop_succ] at he
    rcases List.mem_cons.mp he with h | h
    · rw [h]
    · exact ih _ _ e h

theorem loan_schedule_zero_principal (rate : ℚ) (term : ℤ) (sched : List LoanEntry)
    (h : loan_schedule 0 rate term = .ok sched) : ∀ e ∈ sched, e.payment = 0 := by
  unfold loan_schedule at h
  split at h
  · split at h
    · exact Except.noConfusion h
    split at h
    · exact Except.noConfusion h
    injection h with h2
    subst h2
    intro e he
    rw [amortLoop_payment_const _ _ _ _ _ e he]
    exact zero_mul _
  · split at h
    · exact Except.noConfusion h
    injection h with h2
    subst h2
    intro e he
    rw [amortLoop_payment_const _ _ _ _ _ e he]
    exact zero_div _

theorem yearLoopAux_ds_zero (energy deg ppa opexA esc capex tax_rate : ℚ) (yrs : ℤ)
    (loan : List LoanEntry) (hloan : ∀ e ∈ loan, e.payment = 0) :
    ∀ (k y : ℕ),
      ∀ d ∈ (yearLoopAux energy deg ppa opexA esc capex tax_rate yrs loan y k).debt_service,
        d = 0 := by
  intro k
  induction k with
  | zero => intro y d hd; exact absurd hd (by simp [yearLoopAux])
  | succ k ih =>
    intro y d hd
    unfold yearLoopAux at hd
    simp only [List.mem_cons] at hd
    rcases hd with h | h
    · rw [h]
      cases hget : loan.get? (y - 1) with
      | none => simp [hget]
      | some e => simp [hget, hloan e (List.get?_mem hget)]
    · exact ih (y + 1) d h

theorem dscrLoop_nil_iff :
    ∀ (ds rs os : List ℚ), rs.length = ds.length → os.length = ds.length →
      (dscrLoop rs os ds = [] ↔ ∀ d ∈ ds, d ≤ 0) := by
  intro ds
  induction ds with
  | nil =>
    intro rs os h1 h2
    have hrs : rs = [] := List.length_eq_zero.mp h1
    have hos : os = [] := List.length_eq_zero.mp h2
    subst hrs
    subst hos
    simp [dscrLoop]
  | cons d ds ih =>
    intro rs os h1 h2
    cases rs with
    | nil => simp at h1
    | cons r rs =>
      cases os with
      | nil => simp at h2
      | cons o os =>
        simp only [List.length_cons] at h1 h2
        by_cases hd : d ≤ 0
        · rw [show dscrLoop (r :: rs) (o :: os) (d :: ds) = dscrLoop rs os ds from by
            simp [dscrLoop, hd]]
          rw [ih rs os (by omega) (by omega)]
          simp [List.forall_mem_cons, hd]
        · rw [show dscrLoop (r :: rs) (o :: os) (d :: ds) = (r - o) / d :: dscrLoop rs os ds from by
            simp [dscrLoop, hd]]
          constructor
          · intro h
            exact absurd h (List.cons_ne_nil _ _)
          · intro h
            exact absurd (h d (List.mem_cons_self _ _)) hd

theorem dscrLoop_mem_pos :
    ∀ (ds rs os : List ℚ), rs.length = ds.length → os.length = ds.length →
      (∀ t ∈ rs.zip (os.zip ds), 0 < t.2.2 → t.2.1 < t.1) →
      ∀ x ∈ dscrLoop rs os ds, 0 < x := by
  intro ds
  induction ds with
  | nil =>
    intro rs os h1 h2 hcond x hx
    have hrs : rs = [] := List.length_eq_zero.mp h1
    subst hrs
    exact absurd hx (by simp [dscrLoop])
  | cons d ds ih =>
    intro rs os h1 h2 hcond x hx
    cases rs with
    | nil => simp at h1
    | cons r rs =>
      cases os with
      | nil => simp at h2
      | cons o os =>
        simp only [List.length_cons] at h1 h2
        have hcondtail : ∀ t ∈ rs.zip (os.zip ds), 0 < t.2.2 → t.2.1 < t.1 := by
          intro t ht hp
          refine hcond t ?_ hp
          rw [List.zip_cons_cons, List.zip_cons_cons]
          exact List.mem_cons_of_mem _ ht
        by_cases hd : d ≤ 0
        · rw [show dscrLoop (r :: rs) (o :: os) (d :: ds) = dscrLoop rs os ds from by
            simp [dscrLoop, hd]] at hx
          exact ih rs os (by omega) (by omega) hcondtail x hx
        · rw [show dscrLoop (r :: rs) (o :: os) (d :: ds) = (r - o) / d :: dscrLoop rs os ds from by
            simp [dscrLoop, hd]] at hx
          rcases List.mem_cons.mp hx with h | h
          · have hdpos : 0 < d := not_le.mp hd
            have hro : o < r := hcond (r, (o, d))
              (by rw [List.zip_cons_cons, List.zip_cons_cons]; exact List.mem_cons_self _ _) hdpos
            rw [h]
            exact div_pos (by linarith) hdpos
          · exact ih rs os (by omega) (by omega) hcondtail x h

theorem pymin_eq_none_iff (l : List ℚ) : pymin l = none ↔ l = [] := by
  cases l <;> simp [pymin]

theorem foldl_min_pos :
    ∀ (ys : List ℚ) (a : ℚ), 0 < a → (∀ y ∈ ys, 0 < y) → 0 < ys.foldl min a := by
  intro ys
  induction ys with
  | nil => intro a ha _; exact ha
  | cons y ys ih =>
    intro a ha hy
    exact ih (min a y) (lt_min ha (hy y (List.mem_cons_self _ _)))
      (fun z hz => hy z (List.mem_cons_of_mem _ hz))

theorem pymin_pos (l : List ℚ) (hne : l ≠ []) (hpos : ∀ x ∈ l, 0 < x) :
    ∃ v, pymin l = some v ∧ 0 < v := by
  cases l with
  | nil => exact absurd rfl hne
  | cons x xs =>
    exact ⟨xs.foldl min x, rfl, foldl_min_pos xs x (hpos x (List.mem_cons_self _ _))
      (fun z hz => hpos z (List.mem_cons_of_mem _ hz))⟩

/-- Claim C8: `min_dscr` is `none` exactly when no year has positive debt
service — in particular whenever `debt_pct = 0` — and otherwise (some year
with positive debt service, and revenue exceeding opex in every such year) it
is `some v` with `v` a positive rational; the division `(revenue - opex)/ds`
is only ever formed for years with `ds > 0`. -/
theorem min_dscr_characterization (proj : Project) (financing : Financing)
    (dr tr : ℚ) (yrs : ℤ) (esc : ℚ)
    (ys : YearSeries) (hys : year_series proj financing tr yrs esc = .ok ys)
    (out : Proforma) (hout : compute_project_finance proj financing dr tr yrs esc = .ok out) :
    (out.min_dscr = none ↔ ∀ d ∈ ys.debt_service, d ≤ 0)
    ∧ (financing.debt_pct = 0 → out.min_dscr = none)
    ∧ ((∃ d ∈ ys.debt_service, 0 < d) →
        (∀ t ∈ ys.revenues.zip (ys.opex_list.zip ys.debt_service), 0 < t.2.2 → t.2.1 < t.1) →
        ∃ v, out.min_dscr = some v ∧ 0 < v) := by
  have hmin := compute_ok_min_dscr proj financing dr tr yrs esc ys out hys hout
  obtain ⟨loan, hloan, hysdef⟩ := year_series_ok proj financing tr yrs esc ys hys
  have hlen := yearLoopAux_lengths (proj.capacity_mw * proj.cf_year1 * 8760)
    proj.degradation_pct proj.ppa_price proj.opex_annual esc proj.capex tr yrs loan
    yrs.toNat 1
  have hlen1 : ys.revenues.length = ys.debt_service.length := by
    rw [hysdef]
    rw [hlen.1, hlen.2.2]
  have hlen2 : ys.opex_list.length = ys.debt_service.length := by
    rw [hysdef]
    rw [hlen.2.1, hlen.2.2]
  refine ⟨?_, ?_, ?_⟩
  · rw [hmin, pymin_eq_none_iff]
    exact dscrLoop_nil_iff ys.debt_service ys.revenues ys.opex_list hlen1 hlen2
  · intro hdebt
    have hz : ∀ d ∈ ys.debt_service, d = 0 := by
      rw [hdebt, mul_zero] at hloan
      rw [hysdef]
      exact yearLoopAux_ds_zero (proj.capacity_mw * proj.cf_year1 * 8760)
        proj.degradation_pct proj.ppa_price proj.opex_annual esc proj.capex tr yrs loan
        (loan_schedule_zero_principal financing.interest_rate financing.term_years loan hloan)
        yrs.toNat 1
    rw [hmin, pymin_eq_none_iff,
      dscrLoop_nil_iff ys.debt_service ys.revenues ys.opex_list hlen1 hlen2]
    exact fun d hd => le_of_eq (hz d hd)
  · intro hex hcond
    rw [hmin]
    refine pymin_pos _ ?_ ?_
    · intro hnil
      rw [dscrLoop_nil_iff ys.debt_service ys.revenues ys.opex_list hlen1 hlen2] at hnil
      obtain ⟨d, hd, hdpos⟩ := hex
      exact absurd (hnil d hd) (not_le.mpr hdpos)
    · exact dscrLoop_mem_pos ys.debt_service ys.revenues ys.opex_list hlen1 hlen2 hcond

/-- Witness for Claim C8 at a concrete levered project: one year, revenue 10,
opex 1, debt service 50, giving `min_dscr = 9/50 > 0`. -/
theorem min_dscr_characterization_witness :
    ∃ out, compute_project_finance ⟨1, 1, 0, 1 / 876000, 100, 1⟩ ⟨1 / 2, 0, 1⟩
        (2 / 25) 0 1 0 = .ok out
      ∧ ∃ v, out.min_dscr = some v ∧ 0 < v := by
  cases h : compute_project_finance ⟨1, 1, 0, 1 / 876000, 100, 1⟩ ⟨1 / 2, 0, 1⟩
      (2 / 25) 0 1 0 with
  | error e =>
    have hok : exceptIsOk (compute_project_finance ⟨1, 1, 0, 1 / 876000, 100, 1⟩
        ⟨1 / 2, 0, 1⟩ (2 / 25) 0 1 0) = true := by decide
    rw [h] at hok
    exact absurd hok (by simp [exceptIsOk])
  | ok out =>
    have hys : year_series ⟨1, 1, 0, 1 / 876000, 100, 1⟩ ⟨1 / 2, 0, 1⟩ 0 1 0
        = .ok ⟨[59], [10], [1], [50]⟩ := by decide
    have hc := min_dscr_characterization ⟨1, 1, 0, 1 / 876000, 100, 1⟩ ⟨1 / 2, 0, 1⟩
      (2 / 25) 0 1 0 ⟨[59], [10], [1], [50]⟩ hys out h
    obtain ⟨v, hv, hvpos⟩ := hc.2.2 (by decide) (by decide)
    exact ⟨out, rfl, v, hv, hvpos⟩

end SolRiver
